import Mathlib

/-!
Verification development for the transcript-context layer
(`crates/spanner` and `crates/context`): a shallow embedding of the
JSON/HTTP structural engines, the reveal planners and the enforcement
walker, together with theorems settling the specified properties.

Bytes are modelled as natural numbers (the claims only involve ASCII),
byte-range sets as `Finset Nat`, and Rust panics are modelled as an
explicit `panicked` outcome distinct from returned errors.
-/

namespace TranscriptContext

/-- A byte string, e.g. the text view of a span. -/
abbrev Bytes := List Nat

/-- ASCII bytes of a Lean string literal (all literals used are ASCII). -/
def strBytes (s : String) : Bytes := s.data.map Char.toNat

/-- ASCII lower-casing of one byte, as Rust `to_lowercase` acts on ASCII. -/
def lowerByte (b : Nat) : Nat := if 65 ≤ b ∧ b ≤ 90 then b + 32 else b

/-- ASCII lower-casing of a byte string. -/
def lowerBytes (b : Bytes) : Bytes := b.map lowerByte

/-- The contiguous index range `[a, b)` as a finite set. -/
def rangeFS (a b : Nat) : Finset Nat := (Finset.range b).filter (fun i => a ≤ i)

/-- Direction of transcript data (`transcript::Direction`). -/
inductive Direction where
  | sent
  | received
deriving DecidableEq

/-- Embedding of `spanner::Span`: the ordered set of absolute byte positions
a parsed node covers, together with the source byte view at those positions. -/
structure Span where
  indices : Finset Nat
  bytes : Bytes
deriving DecidableEq

/-- Embedding of `spanner::json::JsonValue` (crates/spanner/src/json/types.rs).
A key-value pair of an object is the triple (pair span, key span, value),
mirroring `KeyValue { span, key, value }`. -/
inductive JsonValue where
  | jnull (s : Span)
  | jbool (s : Span)
  | jnumber (s : Span)
  | jstring (s : Span)
  | jredacted (s : Span)
  | jarray (s : Span) (elems : List JsonValue)
  | jobject (s : Span) (elems : List (Span × Span × JsonValue))

/-- Embedding of `spanner::json::KeyValue`. -/
abbrev KeyValue := Span × Span × JsonValue

/-- The `span` field of a key-value pair. -/
def kvSpan (kv : KeyValue) : Span := kv.1

/-- The `key` field of a key-value pair (the span of the `JsonKey`). -/
def kvKey (kv : KeyValue) : Span := kv.2.1

/-- The `value` field of a key-value pair. -/
def kvValue (kv : KeyValue) : JsonValue := kv.2.2

/-- The span of a JSON value (`Spanned::span` in types.rs). -/
def JsonValue.span : JsonValue → Span
  | .jnull s => s
  | .jbool s => s
  | .jnumber s => s
  | .jstring s => s
  | .jredacted s => s
  | .jarray s _ => s
  | .jobject s _ => s

mutual
/-- Embedding of `JsonContextVisitor::visit_value`
(crates/context/src/json/context.rs, identically
`JsonContextEnforcer::visit_value` in json/enforce.rs).
The Rust visitor returns unit and signals failure by panicking
(`assert_eq!` on literal bytes, `panic!` on a variant mismatch); the
embedding returns `true` exactly when the visit completes without a panic. -/
def visitValue : JsonValue → JsonValue → Bool
  | .jnull _, .jnull _ => true
  | .jredacted _, _ => true
  | .jbool s, .jbool v => s.bytes == v.bytes
  | .jnumber s, .jnumber v => s.bytes == v.bytes
  | .jstring s, .jstring v => s.bytes == v.bytes
  | .jarray _ se, .jarray _ ve => visitArray se ve
  | .jobject _ se, .jobject _ ve => visitObject se ve
  | _, _ => false

/-- Embedding of `visit_array`: the loop
`for (i, elem) in structure.elems { visit_value(elem, value.elems[i]) }`.
Indexing `value.elems[i]` out of bounds is a Rust panic, modelled as
`false`; elements of the candidate beyond the structure's length are
never inspected. -/
def visitArray : List JsonValue → List JsonValue → Bool
  | [], _ => true
  | _ :: _, [] => false
  | s :: ss, v :: vs => visitValue s v && visitArray ss vs

/-- Embedding of `visit_object`: for each structure pair, find the first
candidate pair with byte-equal key (`Iterator::find`), fail if absent
(`assert!` panic), and recurse into the two values. -/
def visitObject : List KeyValue → List KeyValue → Bool
  | [], _ => true
  | (_, ekey, eval) :: es, ve =>
    (match ve.find? (fun kv => (kvKey kv).bytes == ekey.bytes) with
     | none => false
     | some m => visitValue eval (kvValue m)) && visitObject es ve
end

/-- ASCII decimal digit test. -/
def isDigit (b : Nat) : Bool := 48 ≤ b && 57 ≥ b

/-- Value of a non-empty all-digit byte string, else `none`. -/
def digitsVal (l : Bytes) : Option Nat :=
  if l.isEmpty then none
  else if l.all isDigit then some (l.foldl (fun acc b => acc * 10 + (b - 48)) 0)
  else none

/-- Modelled from the Rust standard library (`i64::from_str`, which the
source calls as `num_str.parse::<i64>()`): an optional sign followed by at
least one decimal digit, with the value required to fit in a signed 64-bit
integer. -/
def parseI64 (b : Bytes) : Option Int :=
  match b with
  | 43 :: rest => (digitsVal rest).bind (fun n => if n ≤ 9223372036854775807 then some (n : Int) else none)
  | 45 :: rest => (digitsVal rest).bind (fun n => if n ≤ 9223372036854775808 then some (-(n : Int)) else none)
  | _ => (digitsVal b).bind (fun n => if n ≤ 9223372036854775807 then some (n : Int) else none)

/-- An optionally signed non-empty digit run (exponent tail of a float literal). -/
def signedDigits (b : Bytes) : Bool :=
  match b with
  | 43 :: rest => !rest.isEmpty && rest.all isDigit
  | 45 :: rest => !rest.isEmpty && rest.all isDigit
  | _ => !b.isEmpty && b.all isDigit

/-- An optional exponent part: empty, or `e`/`E` followed by signed digits. -/
def expPart : Bytes → Bool
  | [] => true
  | 101 :: rest => signedDigits rest
  | 69 :: rest => signedDigits rest
  | _ => false

/-- A float mantissa (`digits`, `digits.digits`, `digits.`, or `.digits`)
followed by an optional exponent part. -/
def mantissaThenExp (b : Bytes) : Bool :=
  let ip := b.takeWhile isDigit
  let r := b.drop ip.length
  match r with
  | 46 :: r2 =>
    let fp := r2.takeWhile isDigit
    let r3 := r2.drop fp.length
    (!ip.isEmpty || !fp.isEmpty) && expPart r3
  | _ => !ip.isEmpty && expPart r

/-- An unsigned float literal body: `inf`, `infinity`, `nan`
(case-insensitive), or mantissa and optional exponent. -/
def f64Body (b : Bytes) : Bool :=
  lowerBytes b == strBytes "inf" || lowerBytes b == strBytes "infinity" ||
    lowerBytes b == strBytes "nan" || mantissaThenExp b

/-- Modelled from the Rust standard library (`f64::from_str`, which the
source calls as `num_str.parse::<f64>()`): whether the byte string is an
acceptable 64-bit float literal. Only acceptance is modelled; the parsed
numeric value is not needed by any claim. -/
def rustParsesF64 (b : Bytes) : Bool :=
  match b with
  | 43 :: rest => f64Body rest
  | 45 :: rest => f64Body rest
  | _ => f64Body b

/-- Embedding of `serde_json::Value` as produced by the serialization
visitor. A successful float parse is represented by its source literal
(`vfloat`), since no claim depends on float arithmetic; `from_f64`
returning `None` on a non-finite value (yielding `Number(0)`) is not
distinguished. -/
inductive SerdeValue where
  | vnull
  | vbool (b : Bool)
  | vint (n : Int)
  | vfloat (lit : Bytes)
  | vstr (s : Bytes)
  | varr (elems : List SerdeValue)
  | vobj (elems : List (Bytes × SerdeValue))

/-- Embedding of the `JsonValue::Number` arm of
`JsonSerializationVisitor::visit_value` (json/context.rs): if the literal
contains a dot, attempt a float parse, else attempt an `i64` parse; fall
back to the raw string representation when that parse fails. -/
def serializeNumber (b : Bytes) : SerdeValue :=
  if b.contains 46 then
    if rustParsesF64 b then .vfloat b else .vstr b
  else
    match parseI64 b with
    | some n => .vint n
    | none => .vstr b

/-- Insert-or-replace into the association list modelling the
`HashMap` built by `visit_object`; the hash map's iteration order is not
modelled (no claim depends on it). -/
def assocUpdate (l : List (Bytes × SerdeValue)) (k : Bytes) (v : SerdeValue) :
    List (Bytes × SerdeValue) :=
  if l.any (fun p => p.1 == k) then l.map (fun p => if p.1 == k then (k, v) else p)
  else l ++ [(k, v)]

mutual
/-- Embedding of `JsonSerializationVisitor::visit_value` (json/context.rs):
redacted leaves become the string `__REDACTED__`, booleans are re-parsed
(`parse::<bool>().unwrap_or(false)`, i.e. `true` exactly on the literal
`true`), numbers go through `serializeNumber`, strings keep their bytes. -/
def serializeValue : JsonValue → SerdeValue
  | .jnull _ => .vnull
  | .jredacted _ => .vstr (strBytes "__REDACTED__")
  | .jbool s => .vbool (s.bytes == strBytes "true")
  | .jnumber s => serializeNumber s.bytes
  | .jstring s => .vstr s.bytes
  | .jarray _ elems => .varr (serializeElems elems)
  | .jobject _ elems => .vobj (serializeObjPairs elems [])

/-- Embedding of `JsonSerializationVisitor::visit_array`. -/
def serializeElems : List JsonValue → List SerdeValue
  | [] => []
  | v :: rest => serializeValue v :: serializeElems rest

/-- Embedding of `JsonSerializationVisitor::visit_object` (the `HashMap`
accumulation loop). -/
def serializeObjPairs : List KeyValue → List (Bytes × SerdeValue) → List (Bytes × SerdeValue)
  | [], acc => acc
  | kv :: rest, acc =>
    serializeObjPairs rest (assocUpdate acc (kvKey kv).bytes (serializeValue (kvValue kv)))
end

/-- Embedding of `KeyValue::without_value` (spanner types.rs): the pair's
indices minus the value's indices. -/
def kvWithoutValue (kv : KeyValue) : Finset Nat :=
  (kvSpan kv).indices \ (kvValue kv).span.indices

/-- Embedding of `Object::without_pairs` (spanner types.rs): the object's
indices with each pair's indices removed. -/
def objectWithoutPairs (sp : Span) (elems : List KeyValue) : Finset Nat :=
  elems.foldl (fun acc kv => acc \ (kvSpan kv).indices) sp.indices

/-- Embedding of `Array::without_values` (spanner types.rs): the first and
last index of the span. The source `expect`s a non-empty span (a parsed
array always covers at least its brackets); the empty case is mapped to the
empty set. -/
def arrayWithoutValues (sp : Span) : Finset Nat :=
  if h : sp.indices.Nonempty then {sp.indices.min' h, sp.indices.max' h} else ∅

/-- Embedding of `Array::separators` (spanner types.rs): the span minus the
brackets minus every element's indices. -/
def arraySeparators (sp : Span) (elems : List JsonValue) : Finset Nat :=
  elems.foldl (fun acc e => acc \ e.span.indices) (sp.indices \ arrayWithoutValues sp)

/-- Group a sorted list of indices into maximal runs of consecutive values. -/
def groupRuns : List Nat → List (List Nat)
  | [] => []
  | x :: xs =>
    match groupRuns xs with
    | [] => [[x]]
    | (y :: ys) :: rest => if x + 1 = y then (x :: y :: ys) :: rest else [x] :: (y :: ys) :: rest
    | [] :: rest => [x] :: rest

/-- Embedding of `RangeSet::iter_ranges`: the maximal contiguous runs of an
index set, in ascending order. -/
def toRuns (s : Finset Nat) : List (Finset Nat) :=
  (groupRuns (s.sort (· ≤ ·))).map (fun l => l.toFinset)

/-- A single commitment emitted to the builder: an index set and a direction. -/
abbrev Commit := Finset Nat × Direction

/-- The ordered trace of commitments emitted during a walk. The abstract
`TranscriptCommitmentBuilder` is modelled as a collector that accepts every
commit; a builder-side `Index` rejection would only truncate the trace. -/
abbrev Trace := List Commit

mutual
/-- Embedding of `JsonCommit::commit_value` (json/commit.rs): the trace of
builder commits emitted, paired with the error (`JsonCommitError` message)
if the walk aborts. A `Redacted` value yields the error
`cannot commit redacted value` with no builder call. -/
def commitValue (d : Direction) : JsonValue → Trace × Option String
  | .jobject sp elems =>
    let r := commitKVs d elems
    ((objectWithoutPairs sp elems, d) :: r.1, r.2)
  | .jarray sp elems =>
    if elems.isEmpty then ([(sp.indices, d)], none)
    else
      let r := commitElems d elems
      ((sp.indices, d) :: (arrayWithoutValues sp, d) ::
        ((toRuns (arraySeparators sp elems)).map (fun run => (run, d)) ++ r.1), r.2)
  | .jstring s => (if s.bytes.isEmpty then [] else [(s.indices, d)], none)
  | .jnumber s => ([(s.indices, d)], none)
  | .jbool s => ([(s.indices, d)], none)
  | .jnull s => ([(s.indices, d)], none)
  | .jredacted _ => ([], some "cannot commit redacted value")

/-- Embedding of the pair loop in `JsonCommit::commit_object` via
`commit_key_value`: commit the pair minus its value, then the value. -/
def commitKVs (d : Direction) : List KeyValue → Trace × Option String
  | [] => ([], none)
  | kv :: rest =>
    let r := commitValue d (kvValue kv)
    match r.2 with
    | some e => ((kvWithoutValue kv, d) :: r.1, some e)
    | none =>
      let r2 := commitKVs d rest
      (((kvWithoutValue kv, d) :: r.1) ++ r2.1, r2.2)

/-- Embedding of the element loop in `JsonCommit::commit_array`. -/
def commitElems (d : Direction) : List JsonValue → Trace × Option String
  | [] => ([], none)
  | v :: rest =>
    let r := commitValue d v
    match r.2 with
    | some e => (r.1, some e)
    | none =>
      let r2 := commitElems d rest
      (r.1 ++ r2.1, r2.2)
end

mutual
/-- Embedding of `HttpTranscript::reveal_json_structure`
(http/transcript.rs; the same walk as `JsonCommit::commit_structure`):
objects commit their braces then each pair's key part, arrays commit their
brackets then their separators, recursing into children; primitives emit
nothing. -/
def revealJson (d : Direction) : JsonValue → Trace
  | .jobject sp elems => (objectWithoutPairs sp elems, d) :: revealJsonKVs d elems
  | .jarray sp elems =>
    (arrayWithoutValues sp, d) :: (arraySeparators sp elems, d) :: revealJsonElems d elems
  | _ => []

/-- The key-value loop of `reveal_json_structure`. -/
def revealJsonKVs (d : Direction) : List KeyValue → Trace
  | [] => []
  | kv :: rest => (kvWithoutValue kv, d) :: (revealJson d (kvValue kv) ++ revealJsonKVs d rest)

/-- The element loop of `reveal_json_structure`. -/
def revealJsonElems (d : Direction) : List JsonValue → Trace
  | [] => []
  | v :: rest => revealJson d v ++ revealJsonElems d rest
end

/-- Modelled from the spec: an HTTP header (§4.3, §2-C5): its full span,
its name span and its value span. The HTTP span parser crate is not among
the sources under review; only these observable fields are used. -/
structure Header where
  span : Span
  name : Span
  value : Span
deriving DecidableEq

/-- Modelled from the spec: body content classes (§4.3): `Json`,
`Unknown(bytes)`, with the remaining classes of the parser collapsed into
`unsupported` (they hit the catch-all arms of the source). -/
inductive BodyContent where
  | json (v : JsonValue)
  | unknown (s : Span)
  | unsupported (s : Span)

/-- Modelled from the spec: a message body with its span and content. -/
structure Body where
  span : Span
  content : BodyContent

/-- Modelled from the spec: a response status; equality compares code and
reason text (§4.5 step 6). -/
structure Status where
  code : Bytes
  reason : Bytes
deriving DecidableEq

/-- Modelled from the spec: a parsed HTTP request (§4.3): request line
(method token, target span), ordered headers, optional body. -/
structure Request where
  span : Span
  method : Bytes
  target : Span
  headers : List Header
  body : Option Body

/-- Modelled from the spec: a parsed HTTP response (§4.3), additionally
carrying optional chunked-body boundaries and optional trailers. -/
structure Response where
  span : Span
  status : Status
  headers : List Header
  body : Option Body
  boundaries : Option (List Span)
  trailers : Option (List Header)

/-- Embedding of `HttpTranscript` (http/transcript.rs). -/
structure HttpTranscript where
  requests : List Request
  responses : List Response

/-- Modelled from the spec: `headers_with_name` matches case-insensitively
(§4.3); `.next()` takes the first match in source order. -/
def findHeader (hs : List Header) (name : Bytes) : Option Header :=
  hs.find? (fun h => lowerBytes h.name.bytes == lowerBytes name)

/-- Modelled from the spec: a header's `without_value` (name, colon and
whitespace, §4.6): the header's span minus its value's span. -/
def headerWithoutValue (h : Header) : Finset Nat := h.span.indices \ h.value.indices

/-- Indices of an optional body. -/
def bodyIndices : Option Body → Finset Nat
  | some b => b.span.indices
  | none => ∅

/-- Modelled from the spec: `without_data` on a request returns its span
minus all header values and the body (§4.3). -/
def requestWithoutData (r : Request) : Finset Nat :=
  (r.headers.foldl (fun acc h => acc \ h.value.indices) r.span.indices) \ bodyIndices r.body

/-- Modelled from the spec: `without_data` on a response (§4.3). -/
def responseWithoutData (r : Response) : Finset Nat :=
  (r.headers.foldl (fun acc h => acc \ h.value.indices) r.span.indices) \ bodyIndices r.body

/-- The framing-critical header names of `reveal_structure`
(http/transcript.rs lines 123 and 148-149), lower-case. -/
def framingNames : List Bytes :=
  [strBytes "host", strBytes "content-length", strBytes "content-type",
    strBytes "transfer-encoding"]

/-- The body commits of `reveal_structure`: a JSON body dispatches to the
JSON planner, an unknown body is committed whole, other content commits
nothing. -/
def revealBody (d : Direction) : Option Body → Trace
  | some b =>
    match b.content with
    | .json j => revealJson d j
    | .unknown u => [(u.indices, d)]
    | .unsupported _ => []
  | none => []

/-- Embedding of the request loop of `HttpTranscript::reveal_structure`
(http/transcript.rs lines 115-142): commit `without_data`, the full target,
every header's `without_value`, then — for each framing-critical name —
the first header with that name committed whole, then the body. -/
def revealRequest (r : Request) : Trace :=
  (requestWithoutData r, .sent) :: (r.target.indices, .sent) ::
    (r.headers.map (fun h => (headerWithoutValue h, Direction.sent)) ++
      (framingNames.filterMap (fun n =>
        (findHeader r.headers n).map (fun h => (h.span.indices, Direction.sent))) ++
        revealBody .sent r.body))

/-- Embedding of the response loop of `HttpTranscript::reveal_structure`
(http/transcript.rs lines 144-183): commit `without_data`; each header is
committed whole when its lower-cased name is framing-critical and by
`without_value` otherwise; then the body, the chunked boundaries, and the
trailers' `without_value`. -/
def revealResponse (r : Response) : Trace :=
  (responseWithoutData r, .received) ::
    (r.headers.map (fun h =>
      if lowerBytes h.name.bytes ∈ framingNames then (h.span.indices, Direction.received)
      else (headerWithoutValue h, Direction.received)) ++
      (revealBody .received r.body ++
        ((match r.boundaries with
          | some bs => bs.map (fun b => (b.indices, Direction.received))
          | none => []) ++
          (match r.trailers with
           | some ts => ts.map (fun t => (headerWithoutValue t, Direction.received))
           | none => []))))

/-- Embedding of `HttpTranscript::reveal_structure`: all requests (Sent),
then all responses (Received), in source order. -/
def revealStructure (t : HttpTranscript) : Trace :=
  (t.requests.map revealRequest).flatten ++ (t.responses.map revealResponse).flatten

/-- Whether index `i` of direction `d` is covered by some commit of the trace. -/
def committed (tr : Trace) (d : Direction) (i : Nat) : Prop :=
  ∃ c ∈ tr, c.2 = d ∧ i ∈ c.1

instance (tr : Trace) (d : Direction) (i : Nat) : Decidable (committed tr d i) :=
  List.decidableBEx _ tr

/-- Outcome of a fallible Rust call, keeping a returned error (`Err`)
distinct from a panic (`assert!`, `assert_eq!`, `panic!`, unchecked
indexing): the spec's §7 makes that distinction load-bearing. -/
inductive EnforceResult (α : Type) where
  | ok (a : α)
  | err (msg : String)
  | panicked (msg : String)
deriving DecidableEq

/-- Embedding of `BodyContext` (http/context.rs): the emitted body record. -/
inductive BodyContext where
  | json (v : JsonValue)
  | unknown (b : Bytes)

/-- Embedding of `RequestContext` (http/context.rs). Header names and
values are `String::from_utf8_lossy` decoded in the source; the decoding is
modelled as the identity on bytes (all claims involve ASCII). -/
structure RequestContext where
  target : Bytes
  method : Bytes
  headers : List (Bytes × Bytes)
  body : Option BodyContext

/-- Embedding of `ResponseContext` (http/context.rs); the status is kept as
its code text (`StatusCode::from_str(...).unwrap()` in the source). -/
structure ResponseContext where
  status : Bytes
  headers : List (Bytes × Bytes)
  body : Option BodyContext

/-- Embedding of `HttpContext` (http/context.rs). -/
structure HttpContext where
  requests : List RequestContext
  responses : List ResponseContext

/-- Embedding of `HttpContextBuilder::enforce_body` (http/context.rs lines
46-61): a `(Json, Json)` pair dispatches to the deep comparator
(`JsonContext::builder(structure, value).build()`, whose visitor panics on
mismatch) and wraps the candidate; an `(Unknown, Unknown)` pair requires
byte equality (`assert_eq!`, a panic on mismatch) and wraps the candidate
bytes; every other pairing returns the `Body type mismatch` error. -/
def enforceBody (sb cb : Body) : EnforceResult BodyContext :=
  match sb.content, cb.content with
  | .json sj, .json cj =>
    if visitValue sj cj then .ok (.json cj) else .panicked "JSON structure mismatch"
  | .unknown su, .unknown cu =>
    if su.bytes == cu.bytes then .ok (.unknown cu.bytes) else .panicked "Body content mismatch"
  | _, _ => .err "Body type mismatch"

/-- Drop a URL fragment (the url crate never reports fragments in
`path()`/`query()`). -/
def stripFragment (t : Bytes) : Bytes := t.takeWhile (fun b => b != 35)

/-- The bytes following the first `://`, if any. -/
def splitSchemeRest : Bytes → Option Bytes
  | [] => none
  | 58 :: 47 :: 47 :: rest => some rest
  | _ :: rest => splitSchemeRest rest

/-- Modelled from the spec (§4.5 step 3) and the url crate's join against
the fixed base `https://example.com`: the host a target resolves to.
Origin-form and other relative targets keep the base host; absolute-form
targets supply their own authority. -/
def urlHost (t : Bytes) : Bytes :=
  match splitSchemeRest t with
  | some rest => rest.takeWhile (fun b => b != 47 && b != 63 && b != 35)
  | none => strBytes "example.com"

/-- Modelled from the spec (§4.5 step 3): `path` plus `?query` when a query
is present, as read back from the joined URL. An origin-form target is its
own path-and-query (minus any fragment); an absolute-form target
contributes the part after the authority, with an empty path reading back
as `/`; a scheme-less relative target resolves under the base root. URL
path normalization beyond this is not modelled (no claim exercises it). -/
def pathAndQuery (t : Bytes) : Bytes :=
  if t.head? = some 47 then stripFragment t
  else
    match splitSchemeRest t with
    | some rest =>
      let host := rest.takeWhile (fun b => b != 47 && b != 63 && b != 35)
      let pq := rest.drop host.length
      if pq.head? = some 47 then stripFragment pq else 47 :: stripFragment pq
    | none => 47 :: stripFragment t

/-- Embedding of `HttpContextBuilder::enforce_request_target`
(http/context.rs lines 67-94): compare path-and-query byte-exactly
(`assert_eq!`, a panic on mismatch); when the structure target is not
origin-form, additionally compare hosts. -/
def enforceRequestTarget (sreq creq : Request) : EnforceResult Unit :=
  if pathAndQuery creq.target.bytes == pathAndQuery sreq.target.bytes then
    if sreq.target.bytes.head? = some 47 then .ok ()
    else if urlHost creq.target.bytes == urlHost sreq.target.bytes then .ok ()
    else .panicked "Request target mismatch"
  else .panicked "Request target mismatch"

/-- Embedding of one iteration of the structure-header loop of
`enforce_structure` (http/context.rs lines 119-134 for requests, 163-177
for responses; the two loops are identical): find the first candidate
header with the structure header's name (`ok_or_else` error when missing);
when the structure value has at least one non-sentinel byte, require exact
value equality (`assert_eq!`, a panic on mismatch) and emit the
name-value pair; otherwise the value is wildcarded and nothing is emitted. -/
def headerStep (chs : List Header) (sh : Header) : EnforceResult (Option (Bytes × Bytes)) :=
  match findHeader chs sh.name.bytes with
  | none => .err "Missing required header"
  | some h =>
    if sh.value.bytes.any (fun b => b != 42) then
      if h.value.bytes == sh.value.bytes then .ok (some (h.name.bytes, h.value.bytes))
      else .panicked "Header value mismatch"
    else .ok none

/-- Embedding of the structure-header loop of `enforce_structure`,
including the `content-length` filter applied to the structure's headers. -/
def headerLoop (chs : List Header) : List Header → EnforceResult (List (Bytes × Bytes))
  | [] => .ok []
  | sh :: rest =>
    if lowerBytes sh.name.bytes == strBytes "content-length" then headerLoop chs rest
    else
      match headerStep chs sh with
      | .ok none => headerLoop chs rest
      | .ok (some p) =>
        match headerLoop chs rest with
        | .ok ps => .ok (p :: ps)
        | .err e => .err e
        | .panicked m => .panicked m
      | .err e => .err e
      | .panicked m => .panicked m

/-- Embedding of the body clause of `enforce_structure`: a structure body
requires a candidate body (`Err` when missing); no structure body emits no
body context (a candidate body is then ignored). -/
def bodyPart (sb cb : Option Body) (missingMsg : String) : EnforceResult (Option BodyContext) :=
  match sb with
  | some sbody =>
    match cb with
    | some cbody =>
      match enforceBody sbody cbody with
      | .ok bc => .ok (some bc)
      | .err e => .err e
      | .panicked m => .panicked m
    | none => .err missingMsg
  | none => .ok none

/-- Embedding of the request loop of `enforce_structure` (http/context.rs
lines 109-153) over the zipped structure/candidate pairs: method equality
(`assert_eq!`), target enforcement, header loop, body clause, then the
emitted `RequestContext` taken from the candidate. -/
def enforceRequests : List (Request × Request) → EnforceResult (List RequestContext)
  | [] => .ok []
  | (sreq, creq) :: rest =>
    if creq.method == sreq.method then
      match enforceRequestTarget sreq creq with
      | .ok _ =>
        match headerLoop creq.headers sreq.headers with
        | .ok hdrs =>
          match bodyPart sreq.body creq.body "Request body missing" with
          | .ok bodyCtx =>
            match enforceRequests rest with
            | .ok rcs =>
              .ok ({ target := creq.target.bytes, method := creq.method,
                     headers := hdrs, body := bodyCtx } :: rcs)
            | .err e => .err e
            | .panicked m => .panicked m
          | .err e => .err e
          | .panicked m => .panicked m
        | .err e => .err e
        | .panicked m => .panicked m
      | .err e => .err e
      | .panicked m => .panicked m
    else .panicked "Request method mismatch"

/-- Embedding of the response loop of `enforce_structure` (http/context.rs
lines 155-195): status equality (`assert_eq!`), header loop, body clause,
then the emitted `ResponseContext` taken from the candidate. -/
def enforceResponses : List (Response × Response) → EnforceResult (List ResponseContext)
  | [] => .ok []
  | (sresp, cresp) :: rest =>
    if cresp.status == sresp.status then
      match headerLoop cresp.headers sresp.headers with
      | .ok hdrs =>
        match bodyPart sresp.body cresp.body "Response body missing" with
        | .ok bodyCtx =>
          match enforceResponses rest with
          | .ok rcs =>
            .ok ({ status := cresp.status.code, headers := hdrs, body := bodyCtx } :: rcs)
          | .err e => .err e
          | .panicked m => .panicked m
        | .err e => .err e
        | .panicked m => .panicked m
      | .err e => .err e
      | .panicked m => .panicked m
    else .panicked "Response status mismatch"

/-- Embedding of `HttpContextBuilder::enforce_structure` (http/context.rs
lines 102-201): the two count checks (`assert_eq!`, panics on mismatch),
then the request loop, then the response loop; only a fully successful walk
produces an `HttpContext`. -/
def enforceStructure (sTr cTr : HttpTranscript) : EnforceResult HttpContext :=
  if cTr.requests.length == sTr.requests.length then
    if cTr.responses.length == sTr.responses.length then
      match enforceRequests (sTr.requests.zip cTr.requests) with
      | .ok rcs =>
        match enforceResponses (sTr.responses.zip cTr.responses) with
        | .ok rscs => .ok { requests := rcs, responses := rscs }
        | .err e => .err e
        | .panicked m => .panicked m
      | .err e => .err e
      | .panicked m => .panicked m
    else .panicked "Response count mismatch"
  else .panicked "Request count mismatch"

/-- Executable pairwise disjointness of a list of index sets. -/
def pairwiseDisj : List (Finset Nat) → Bool
  | [] => true
  | s :: rest => rest.all (fun t => decide (Disjoint s t)) && pairwiseDisj rest

/-- The pair spans of an object's elements. -/
def kvSpanSets (l : List KeyValue) : List (Finset Nat) := l.map (fun kv => (kvSpan kv).indices)

/-- The spans of an array's elements. -/
def elemSpanSets (l : List JsonValue) : List (Finset Nat) := l.map (fun v => v.span.indices)

mutual
/-- The span invariants of the data model (spec §3, "JsonValue"): the span
of a composite covers the spans of all children, child spans are disjoint,
a pair's value span lies inside the pair's span, and array elements lie
strictly between the brackets. Every tree produced by the JSON span parser
satisfies this. -/
def wfJson : JsonValue → Bool
  | .jobject sp elems => wfKVs sp elems && pairwiseDisj (kvSpanSets elems)
  | .jarray sp elems => wfElems sp elems && pairwiseDisj (elemSpanSets elems)
  | _ => true

/-- Per-pair span invariants of an object's elements. -/
def wfKVs (sp : Span) : List KeyValue → Bool
  | [] => true
  | kv :: rest =>
    decide ((kvValue kv).span.indices ⊆ (kvSpan kv).indices) &&
      decide ((kvSpan kv).indices ⊆ sp.indices) &&
      wfJson (kvValue kv) && wfKVs sp rest

/-- Per-element span invariants of an array's elements. -/
def wfElems (sp : Span) : List JsonValue → Bool
  | [] => true
  | v :: rest =>
    decide (v.span.indices ⊆ sp.indices) &&
      decide (Disjoint v.span.indices (arrayWithoutValues sp)) &&
      wfJson v && wfElems sp rest
end

/-- Fixture: the parse of the minimal request `GET /a HTTP/1.1(CRLF)(CRLF)`
(18 bytes; target `/a` at positions 4-5), with no headers and no body. -/
def reqGetA : Request :=
  { span := ⟨rangeFS 0 18, strBytes "GET /a HTTP/1.1"⟩
    method := strBytes "GET"
    target := ⟨rangeFS 4 6, strBytes "/a"⟩
    headers := []
    body := none }

/-- Fixture: a one-request structure template. -/
def structOneRequest : HttpTranscript := { requests := [reqGetA], responses := [] }

/-- Fixture: an empty candidate transcript. -/
def emptyTranscript : HttpTranscript := { requests := [], responses := [] }

/-- Fixture: first `Content-Type: a` header of the duplicate-header request
(name at 17-28, value `a` at 31, header span 17-31). -/
def hdrCT1 : Header :=
  { span := ⟨rangeFS 17 32, strBytes "Content-Type: a"⟩
    name := ⟨rangeFS 17 29, strBytes "Content-Type"⟩
    value := ⟨rangeFS 31 32, strBytes "a"⟩ }

/-- Fixture: second `Content-Type: b` header of the duplicate-header
request (name at 34-45, value `b` at 48, header span 34-48). -/
def hdrCT2 : Header :=
  { span := ⟨rangeFS 34 49, strBytes "Content-Type: b"⟩
    name := ⟨rangeFS 34 46, strBytes "Content-Type"⟩
    value := ⟨rangeFS 48 49, strBytes "b"⟩ }

/-- Fixture: a request carrying two `Content-Type` headers. -/
def reqDupCT : Request :=
  { span := ⟨rangeFS 0 53, []⟩
    method := strBytes "GET"
    target := ⟨rangeFS 4 6, strBytes "/a"⟩
    headers := [hdrCT1, hdrCT2]
    body := none }

/-- Fixture: the transcript with the duplicate-header request. -/
def transcriptDupCT : HttpTranscript := { requests := [reqDupCT], responses := [] }

/-- Fixture: the structure header `Host: *` (wildcard value). -/
def hdrHostStar : Header :=
  { span := ⟨rangeFS 17 24, strBytes "Host: *"⟩
    name := ⟨rangeFS 17 21, strBytes "Host"⟩
    value := ⟨rangeFS 23 24, strBytes "*"⟩ }

/-- Fixture: the candidate header `Host: example.com`. -/
def hdrHostExample : Header :=
  { span := ⟨rangeFS 17 34, strBytes "Host: example.com"⟩
    name := ⟨rangeFS 17 21, strBytes "Host"⟩
    value := ⟨rangeFS 23 34, strBytes "example.com"⟩ }

/-- Fixture: the parse of the structure template
`GET /a HTTP/1.1(CRLF)Host: *(CRLF)(CRLF)`. -/
def structReqHostStar : Request :=
  { span := ⟨rangeFS 0 28, []⟩
    method := strBytes "GET"
    target := ⟨rangeFS 4 6, strBytes "/a"⟩
    headers := [hdrHostStar]
    body := none }

/-- Fixture: the parse of the candidate
`GET /a HTTP/1.1(CRLF)Host: example.com(CRLF)(CRLF)`. -/
def candReqHostExample : Request :=
  { span := ⟨rangeFS 0 38, []⟩
    method := strBytes "GET"
    target := ⟨rangeFS 4 6, strBytes "/a"⟩
    headers := [hdrHostExample]
    body := none }

/-- Fixture: the one-request structure transcript of scenario 1. -/
def structHostStar : HttpTranscript := { requests := [structReqHostStar], responses := [] }

/-- Fixture: the one-request candidate transcript of scenario 1. -/
def candHostExample : HttpTranscript := { requests := [candReqHostExample], responses := [] }

/-- Fixture: the structure array `[42]` with its number element. -/
def structArr42 : JsonValue :=
  .jarray ⟨rangeFS 0 4, strBytes "[42]"⟩ [.jnumber ⟨rangeFS 1 3, strBytes "42"⟩]

/-- Fixture: the candidate array `[42,14]` with two number elements. -/
def candArr4214 : JsonValue :=
  .jarray ⟨rangeFS 0 7, strBytes "[42,14]"⟩
    [.jnumber ⟨rangeFS 1 3, strBytes "42"⟩, .jnumber ⟨rangeFS 4 6, strBytes "14"⟩]

/-- Fixture: the parse of `[***]` — an array whose single element is a
redacted run at positions 1-3. -/
def arrWithRedacted : JsonValue :=
  .jarray ⟨rangeFS 0 5, strBytes "[***]"⟩ [.jredacted ⟨rangeFS 1 4, strBytes "***"⟩]

/-- Fixture: the number literal `1e5` (no dot, not an i64, a valid f64). -/
def numLit1e5 : Span := ⟨rangeFS 0 3, strBytes "1e5"⟩

/-- Whether two body contents fall in the same content class (both JSON or
both unknown) — the pairings not hitting the catch-all arm of
`enforce_body`. -/
def sameBodyClass : BodyContent → BodyContent → Bool
  | .json _, .json _ => true
  | .unknown _, .unknown _ => true
  | _, _ => false

/-- Fixture: the request context emitted for scenario 1. -/
def ctxReqC7 : RequestContext :=
  { target := strBytes "/a", method := strBytes "GET", headers := [], body := none }

/-- Fixture: a body whose content is the JSON value `null`. -/
def bodyJsonNull : Body := { span := ⟨∅, []⟩, content := .json (.jnull ⟨∅, []⟩) }

/-- Fixture: a body with unknown content `ab`. -/
def bodyUnknownAB : Body := { span := ⟨∅, []⟩, content := .unknown ⟨∅, strBytes "ab"⟩ }

/-- Claim C1, evaluated at the failing input: the deep comparator accepts
the candidate array `[42,14]` against the structure array `[42]` although
the element counts differ — `visit_array` iterates only over the
structure's elements and never compares lengths, so extra candidate
elements are silently accepted (and a shorter candidate is an
out-of-bounds indexing panic, not a structured failure), contradicting the
claim and the visitor's own doc comment. -/
theorem C1_array_count_not_enforced :
    visitValue structArr42 candArr4214 = true ∧
    (∃ sp se sp2 ve, structArr42 = JsonValue.jarray sp se ∧
      candArr4214 = JsonValue.jarray sp2 ve ∧ se.length ≠ ve.length) :=
  ⟨by decide, _, _, _, _, rfl, rfl, by decide⟩

/-- Claim C2, evaluated at a failing input: on a request-count mismatch
(structure has one request, candidate none) `enforce_structure` panics via
`assert_eq!` instead of returning the `CountMismatch` error the spec's
taxonomy requires — as it does for method, status, header-value and
body-content mismatches, all of which are `assert` macros in the source. -/
theorem C2_count_mismatch_panics :
    enforceStructure structOneRequest emptyTranscript =
      .panicked "Request count mismatch" := rfl

/-- Claim C9, counterexample: the number literal `1e5` contains no dot, so
the serializer attempts only the integer parse and falls back to the raw
string — even though a float parse would succeed — contradicting the
claimed integer-then-float-then-string cascade. -/
theorem C9_counterexample :
    serializeValue (.jnumber numLit1e5) = .vstr (strBytes "1e5") ∧
    rustParsesF64 (strBytes "1e5") = true ∧
    parseI64 (strBytes "1e5") = none :=
  ⟨rfl, by decide, by decide⟩

/-- Claim C9 as amended: redacted leaves serialize to the string
`__REDACTED__`; booleans normalize to true/false; a number literal
containing a dot attempts only a float parse and one without a dot attempts
only an integer parse, in either case falling back to the raw string when
that single parse fails. -/
theorem C9_amended :
    (∀ sp, serializeValue (.jredacted sp) = .vstr (strBytes "__REDACTED__")) ∧
    (∀ sp, serializeValue (.jbool sp) = .vbool (sp.bytes == strBytes "true")) ∧
    (∀ sp, serializeValue (.jnumber sp) =
      if sp.bytes.contains 46 then
        (if rustParsesF64 sp.bytes then .vfloat sp.bytes else .vstr sp.bytes)
      else
        match parseI64 sp.bytes with
        | some n => .vint n
        | none => .vstr sp.bytes) :=
  ⟨fun _ => rfl, fun _ => rfl, fun sp => by simp [serializeValue, serializeNumber]⟩

/-- Claim C9 amended, witness at concrete inputs: a redacted leaf
serializes to the `__REDACTED__` string, and the dotless literal `1e5`
falls into the integer branch and back to a raw string. -/
theorem C9_amended_witness :
    serializeValue (.jredacted numLit1e5) = .vstr (strBytes "__REDACTED__") ∧
    serializeValue (.jnumber numLit1e5) =
      (match parseI64 numLit1e5.bytes with
        | some n => SerdeValue.vint n
        | none => SerdeValue.vstr numLit1e5.bytes) :=
  ⟨C9_amended.1 numLit1e5, by rw [C9_amended.2.2 numLit1e5]; rfl⟩

/-- Claim C10, counterexample: committing the array `[***]` whose single
element is redacted does fail with the redacted-value error, but only
after the whole array span — including the redacted bytes 1-3 — has been
passed to the builder by `commit_array`, so redacted data bytes can enter
a commitment through the value-committing path. -/
theorem C10_counterexample :
    (commitValue .received arrWithRedacted).2 = some "cannot commit redacted value" ∧
    ∃ c ∈ (commitValue .received arrWithRedacted).1, c.2 = .received ∧ rangeFS 1 4 ⊆ c.1 := by
  decide

/-- Claim C10 as amended: a `Redacted` node passed directly to
`commit_value` yields the `cannot commit redacted value` error without any
builder invocation (the emitted trace is empty); the claim's further
consequence fails for redacted values nested in arrays, whose bytes are
covered by the enclosing whole-array commit emitted before the error. -/
theorem C10_amended (d : Direction) (sp : Span) :
    commitValue d (.jredacted sp) = ([], some "cannot commit redacted value") := rfl

/-- Claim C10 amended, witness at a concrete input. -/
theorem C10_amended_witness :
    commitValue .sent (.jredacted numLit1e5) = ([], some "cannot commit redacted value") :=
  C10_amended .sent numLit1e5

/-- Claim C7, counterexample: on structure
`GET /a HTTP/1.1 | Host: *` and candidate
`GET /a HTTP/1.1 | Host: example.com`, enforcement accepts and emits
method `GET`, target `/a`, no body — but the emitted context does *not*
contain the header pair `(Host, example.com)`: a structure header whose
value is entirely sentinels skips the propagation push, so wildcarded
headers never reach the `HttpContext`. -/
theorem C7_counterexample :
    enforceStructure structHostStar candHostExample =
      .ok { requests := [ctxReqC7], responses := [] } ∧
    (strBytes "Host", strBytes "example.com") ∉ ctxReqC7.headers :=
  ⟨rfl, by simp [ctxReqC7]⟩

/-- Claim C7 as amended: for structure `GET /a HTTP/1.1 | Host: *` and
candidate `GET /a HTTP/1.1 | Host: example.com`, enforcement accepts (the
wildcarded `Host` matches any value) and the emitted `HttpContext` has
method `GET`, target `/a`, no body, and an empty header list — the
wildcarded `Host` header does not propagate into the context. -/
theorem C7_amended_eval :
    enforceStructure structHostStar candHostExample =
      .ok { requests := [{ target := strBytes "/a", method := strBytes "GET",
                           headers := [], body := none }],
            responses := [] } := rfl

/-- Claim C6: wildcard acceptance. A structure JSON subtree that is a
`Redacted` node accepts any candidate subtree; a structure header whose
value consists entirely of sentinel bytes `*` accepts any candidate value —
the per-header check succeeds (emitting nothing) whenever a header with
the structure's name is present, regardless of its value. -/
theorem C6_wildcard_acceptance :
    (∀ sp v, visitValue (.jredacted sp) v = true) ∧
    (∀ chs sh h, sh.value.bytes.all (fun b => b == 42) = true →
      findHeader chs sh.name.bytes = some h →
      headerStep chs sh = .ok none) := by
  constructor
  · intro sp v
    cases v <;> rfl
  · intro chs sh h hall hfind
    have hany : sh.value.bytes.any (fun b => b != 42) = false := by
      simp only [List.all_eq_true] at hall
      simp only [List.any_eq_false]
      intro b hb
      simpa using hall b hb
    simp [headerStep, hfind, hany]

/-- Claim C6, witness at concrete inputs: the all-sentinel `Host: *`
structure header accepts the candidate value `example.com`, and a redacted
structure subtree accepts a number candidate. -/
theorem C6_wildcard_witness :
    headerStep [hdrHostExample] hdrHostStar = .ok none ∧
    visitValue (.jredacted numLit1e5) (.jnumber numLit1e5) = true :=
  ⟨C6_wildcard_acceptance.2 [hdrHostExample] hdrHostStar hdrHostExample (by decide) (by decide),
    C6_wildcard_acceptance.1 numLit1e5 (.jnumber numLit1e5)⟩

/-- Claim C8: `enforce_body` behaves by content class — a `(Json, Json)`
pair is settled by the deep comparator and on success wraps the candidate
JSON; an `(Unknown, Unknown)` pair succeeds exactly when the byte
sequences are equal, wrapping the candidate bytes; every other pairing
fails with the `Body type mismatch` error. -/
theorem C8_enforce_body :
    (∀ sb cb sj cj, sb.content = .json sj → cb.content = .json cj →
      enforceBody sb cb =
        if visitValue sj cj then .ok (.json cj) else .panicked "JSON structure mismatch") ∧
    (∀ sb cb su cu, sb.content = .unknown su → cb.content = .unknown cu →
      (enforceBody sb cb = .ok (.unknown cu.bytes) ↔ su.bytes = cu.bytes)) ∧
    (∀ sb cb, sameBodyClass sb.content cb.content = false →
      enforceBody sb cb = .err "Body type mismatch") := by
  refine ⟨?_, ?_, ?_⟩
  · intro sb cb sj cj h1 h2
    simp only [enforceBody, h1, h2]
  · intro sb cb su cu h1 h2
    simp only [enforceBody, h1, h2]
    by_cases h : su.bytes = cu.bytes
    · simp [h]
    · simp [h]
  · intro sb cb h
    cases hsb : sb.content <;> cases hcb : cb.content <;>
      rw [hsb, hcb] at h <;> simp [sameBodyClass] at h <;>
      simp [enforceBody, hsb, hcb]

/-- Claim C8, witness at concrete inputs: two equal JSON-null bodies are
accepted and wrapped as a JSON body context. -/
theorem C8_enforce_body_witness :
    enforceBody bodyJsonNull bodyJsonNull = .ok (.json (.jnull ⟨∅, []⟩)) := by
  have h := C8_enforce_body.1 bodyJsonNull bodyJsonNull (.jnull ⟨∅, []⟩) (.jnull ⟨∅, []⟩) rfl rfl
  simpa using h

/-- The object loop of the deep comparator succeeds exactly when every
structure pair finds its first byte-equal-key candidate pair and the two
values compare successfully. -/
theorem visitObject_iff (se ve : List KeyValue) :
    visitObject se ve = true ↔
      ∀ e ∈ se, ∃ m, ve.find? (fun kv => (kvKey kv).bytes == (kvKey e).bytes) = some m ∧
        visitValue (kvValue e) (kvValue m) = true := by
  induction se with
  | nil => simp [visitObject]
  | cons e es ih =>
    obtain ⟨esp, ekey, eval⟩ := e
    rw [visitObject, Bool.and_eq_true, ih, List.forall_mem_cons]
    constructor
    · rintro ⟨h1, h2⟩
      refine ⟨?_, h2⟩
      cases h : ve.find? (fun kv => (kvKey kv).bytes == ekey.bytes) with
      | none => rw [h] at h1; exact absurd h1 (by simp)
      | some m =>
        exact ⟨m, by simpa [kvKey] using h, by rw [h] at h1; simpa [kvValue] using h1⟩
    · rintro ⟨⟨m, hm, hv⟩, h2⟩
      refine ⟨?_, h2⟩
      rw [show (fun kv => (kvKey kv).bytes == (kvKey (esp, ekey, eval)).bytes) =
            (fun kv => (kvKey kv).bytes == ekey.bytes) from rfl] at hm
      rw [hm]
      simpa [kvValue] using hv

/-- Claim C5: for a pair of `Object` nodes the deep comparator succeeds if
and only if every key-value pair of the structure has a candidate pair with
byte-equal key — resolved, under duplicate candidate keys, to the first
match in source order (`find`) — whose value compares successfully;
candidate pairs whose keys are not named in the structure are unconstrained
and can never cause failure. -/
theorem C5_object_matching (ssp vsp : Span) (se ve : List KeyValue) :
    visitValue (.jobject ssp se) (.jobject vsp ve) = true ↔
      ∀ e ∈ se, ∃ m, ve.find? (fun kv => (kvKey kv).bytes == (kvKey e).bytes) = some m ∧
        visitValue (kvValue e) (kvValue m) = true := by
  rw [show visitValue (.jobject ssp se) (.jobject vsp ve) = visitObject se ve from rfl]
  exact visitObject_iff se ve

/-- Claim C5, witness at concrete inputs: a structure object with one key
matches a candidate with an extra key and a duplicate of the matched key
(the first occurrence wins). -/
theorem C5_object_matching_witness :
    visitValue
      (.jobject ⟨∅, []⟩ [(⟨∅, []⟩, ⟨∅, strBytes "k"⟩, .jnumber ⟨∅, strBytes "42"⟩)])
      (.jobject ⟨∅, []⟩
        [(⟨∅, []⟩, ⟨∅, strBytes "x"⟩, .jnull ⟨∅, []⟩),
          (⟨∅, []⟩, ⟨∅, strBytes "k"⟩, .jnumber ⟨∅, strBytes "42"⟩),
          (⟨∅, []⟩, ⟨∅, strBytes "k"⟩, .jnumber ⟨∅, strBytes "7"⟩)]) = true :=
  (C5_object_matching ⟨∅, []⟩ ⟨∅, []⟩ _ _).mpr (by decide)

/-- Every commit of a request's walk appears in the whole transcript's
trace. -/
theorem mem_revealStructure_request {t : HttpTranscript} {req : Request} {c : Commit}
    (hreq : req ∈ t.requests) (hc : c ∈ revealRequest req) : c ∈ revealStructure t := by
  unfold revealStructure
  exact List.mem_append_left _
    (List.mem_flatten.mpr ⟨revealRequest req, List.mem_map_of_mem _ hreq, hc⟩)

/-- Every commit of a response's walk appears in the whole transcript's
trace. -/
theorem mem_revealStructure_response {t : HttpTranscript} {resp : Response} {c : Commit}
    (hresp : resp ∈ t.responses) (hc : c ∈ revealResponse resp) : c ∈ revealStructure t := by
  unfold revealStructure
  exact List.mem_append_right _
    (List.mem_flatten.mpr ⟨revealResponse resp, List.mem_map_of_mem _ hresp, hc⟩)

/-- Claim C4, counterexample: in a request carrying two `Content-Type`
headers the framing loop commits only the *first* header with each
framing-critical name whole; the value byte (position 48) of the second
`Content-Type` header is covered by no Sent commit of `reveal_structure`. -/
theorem C4_counterexample :
    hdrCT2 ∈ reqDupCT.headers ∧
    lowerBytes hdrCT2.name.bytes ∈ framingNames ∧
    48 ∈ hdrCT2.span.indices ∧
    ¬ committed (revealStructure transcriptDupCT) .sent 48 := by
  decide

/-- Claim C4 as amended: after `reveal_structure`, every response header
whose (lower-cased) name is framing-critical has its full name+value range
in the Received commitment set — all occurrences — while on the request
side the *first* header with each framing-critical name has its full range
in the Sent commitment set (later duplicates are only committed without
their value). -/
theorem C4_amended (t : HttpTranscript) :
    (∀ resp ∈ t.responses, ∀ h ∈ resp.headers,
      lowerBytes h.name.bytes ∈ framingNames →
      ∀ i ∈ h.span.indices, committed (revealStructure t) .received i) ∧
    (∀ req ∈ t.requests, ∀ n ∈ framingNames, ∀ h,
      findHeader req.headers n = some h →
      ∀ i ∈ h.span.indices, committed (revealStructure t) .sent i) := by
  constructor
  · intro resp hresp h hh hframing i hi
    refine ⟨(h.span.indices, .received), ?_, rfl, hi⟩
    apply mem_revealStructure_response hresp
    unfold revealResponse
    apply List.mem_cons_of_mem
    apply List.mem_append_left
    refine List.mem_map.mpr ⟨h, hh, ?_⟩
    simp [hframing]
  · intro req hreq n hn h hfind i hi
    refine ⟨(h.span.indices, .sent), ?_, rfl, hi⟩
    apply mem_revealStructure_request hreq
    unfold revealRequest
    apply List.mem_cons_of_mem
    apply List.mem_cons_of_mem
    apply List.mem_append_right
    apply List.mem_append_left
    refine List.mem_filterMap.mpr ⟨n, hn, ?_⟩
    simp [hfind]

/-- Claim C4 amended, witness at a concrete input: the first
`Content-Type` header of the duplicate-header request is committed whole —
its first byte (position 17) is in the Sent commitment set. -/
theorem C4_amended_witness :
    committed (revealStructure transcriptDupCT) .sent 17 :=
  (C4_amended transcriptDupCT).2 reqDupCT (List.mem_singleton.mpr rfl)
    (strBytes "content-type") (by decide) hdrCT1 (by decide) 17 (by decide)

/-- Membership in an iterated set difference: in the initial set and in
none of the subtracted sets. -/
theorem mem_foldl_sdiff {α : Type} (f : α → Finset Nat) (l : List α) (init : Finset Nat)
    (x : Nat) :
    x ∈ l.foldl (fun acc a => acc \ f a) init ↔ x ∈ init ∧ ∀ a ∈ l, x ∉ f a := by
  induction l generalizing init with
  | nil => simp
  | cons a as ih =>
    rw [List.foldl_cons, ih, Finset.mem_sdiff, List.forall_mem_cons]
    tauto

/-- An iterated set difference stays inside the initial set. -/
theorem foldl_sdiff_subset {α : Type} (f : α → Finset Nat) (l : List α) (init : Finset Nat) :
    l.foldl (fun acc a => acc \ f a) init ⊆ init :=
  fun x hx => ((mem_foldl_sdiff f l init x).mp hx).1

/-- An iterated set difference is disjoint from each subtracted set. -/
theorem foldl_sdiff_disjoint {α : Type} (f : α → Finset Nat) (l : List α) (init : Finset Nat)
    {a : α} (ha : a ∈ l) :
    Disjoint (l.foldl (fun b c => b \ f c) init) (f a) := by
  rw [Finset.disjoint_left]
  intro x hx
  exact ((mem_foldl_sdiff f l init x).mp hx).2 a ha

/-- The braces set of an object lies inside the object's span. -/
theorem objectWithoutPairs_subset (sp : Span) (elems : List KeyValue) :
    objectWithoutPairs sp elems ⊆ sp.indices :=
  foldl_sdiff_subset (fun kv => (kvSpan kv).indices) elems sp.indices

/-- The braces set of an object avoids every pair's span. -/
theorem objectWithoutPairs_disjoint {sp : Span} {elems : List KeyValue} {kv : KeyValue}
    (h : kv ∈ elems) :
    Disjoint (objectWithoutPairs sp elems) (kvSpan kv).indices :=
  foldl_sdiff_disjoint (fun kv => (kvSpan kv).indices) elems sp.indices h

/-- The brackets set of an array lies inside the array's span. -/
theorem arrayWithoutValues_subset (sp : Span) : arrayWithoutValues sp ⊆ sp.indices := by
  unfold arrayWithoutValues
  split
  · intro x hx
    rcases Finset.mem_insert.mp hx with h | h
    · subst h; exact Finset.min'_mem _ _
    · rw [Finset.mem_singleton.mp h]; exact Finset.max'_mem _ _
  · intro x hx
    cases Finset.not_mem_empty x hx

/-- The separators set of an array lies inside the array's span. -/
theorem arraySeparators_subset (sp : Span) (elems : List JsonValue) :
    arraySeparators sp elems ⊆ sp.indices := by
  intro x hx
  have hx2 := foldl_sdiff_subset (fun x : JsonValue => x.span.indices) elems
    (sp.indices \ arrayWithoutValues sp) hx
  exact (Finset.mem_sdiff.mp hx2).1

/-- The separators set of an array avoids the brackets. -/
theorem arraySeparators_disjoint_wv (sp : Span) (elems : List JsonValue) :
    Disjoint (arraySeparators sp elems) (arrayWithoutValues sp) := by
  rw [Finset.disjoint_left]
  intro x hx
  have hx2 := foldl_sdiff_subset (fun x : JsonValue => x.span.indices) elems
    (sp.indices \ arrayWithoutValues sp) hx
  exact (Finset.mem_sdiff.mp hx2).2

/-- The separators set of an array avoids every element's span. -/
theorem arraySeparators_disjoint_elem {sp : Span} {elems : List JsonValue} {v : JsonValue}
    (h : v ∈ elems) :
    Disjoint (arraySeparators sp elems) v.span.indices :=
  foldl_sdiff_disjoint (fun x : JsonValue => x.span.indices) elems
    (sp.indices \ arrayWithoutValues sp) h

/-- Components of the object well-formedness flag. -/
theorem wfJson_object {sp : Span} {elems : List KeyValue}
    (h : wfJson (.jobject sp elems) = true) :
    wfKVs sp elems = true ∧ pairwiseDisj (kvSpanSets elems) = true := by
  rw [wfJson, Bool.and_eq_true] at h
  exact h

/-- Components of the array well-formedness flag. -/
theorem wfJson_array {sp : Span} {elems : List JsonValue}
    (h : wfJson (.jarray sp elems) = true) :
    wfElems sp elems = true ∧ pairwiseDisj (elemSpanSets elems) = true := by
  rw [wfJson, Bool.and_eq_true] at h
  exact h

/-- Components of the pair well-formedness flag for a head pair. -/
theorem wfKVs_cons {sp : Span} {kv : KeyValue} {rest : List KeyValue}
    (h : wfKVs sp (kv :: rest) = true) :
    (kvValue kv).span.indices ⊆ (kvSpan kv).indices ∧ (kvSpan kv).indices ⊆ sp.indices ∧
      wfJson (kvValue kv) = true ∧ wfKVs sp rest = true := by
  simp only [wfKVs, Bool.and_eq_true, decide_eq_true_eq] at h
  tauto

/-- Components of the element well-formedness flag for a head element. -/
theorem wfElems_cons {sp : Span} {v : JsonValue} {rest : List JsonValue}
    (h : wfElems sp (v :: rest) = true) :
    v.span.indices ⊆ sp.indices ∧ Disjoint v.span.indices (arrayWithoutValues sp) ∧
      wfJson v = true ∧ wfElems sp rest = true := by
  simp only [wfElems, Bool.and_eq_true, decide_eq_true_eq] at h
  tauto

/-- Per-member form of the pair well-formedness flag. -/
theorem wfKVs_mem {sp : Span} {elems : List KeyValue} {kv : KeyValue}
    (h : wfKVs sp elems = true) (hkv : kv ∈ elems) :
    (kvValue kv).span.indices ⊆ (kvSpan kv).indices ∧ (kvSpan kv).indices ⊆ sp.indices ∧
      wfJson (kvValue kv) = true := by
  induction elems with
  | nil => cases hkv
  | cons a as ih =>
    obtain ⟨h1, h2, h3, h4⟩ := wfKVs_cons h
    rcases List.mem_cons.mp hkv with rfl | hkv2
    · exact ⟨h1, h2, h3⟩
    · exact ih h4 hkv2

/-- Per-member form of the element well-formedness flag. -/
theorem wfElems_mem {sp : Span} {elems : List JsonValue} {v : JsonValue}
    (h : wfElems sp elems = true) (hv : v ∈ elems) :
    v.span.indices ⊆ sp.indices ∧ Disjoint v.span.indices (arrayWithoutValues sp) ∧
      wfJson v = true := by
  induction elems with
  | nil => cases hv
  | cons a as ih =>
    obtain ⟨h1, h2, h3, h4⟩ := wfElems_cons h
    rcases List.mem_cons.mp hv with rfl | hv2
    · exact ⟨h1, h2, h3⟩
    · exact ih h4 hv2

/-- Head decomposition of the executable pairwise disjointness check. -/
theorem pairwiseDisj_cons {s : Finset Nat} {rest : List (Finset Nat)}
    (h : pairwiseDisj (s :: rest) = true) :
    (∀ t ∈ rest, Disjoint s t) ∧ pairwiseDisj rest = true := by
  simp only [pairwiseDisj, Bool.and_eq_true, List.all_eq_true, decide_eq_true_eq] at h
  exact h

mutual
/-- Every commit of the JSON planner on a well-formed value lies inside
the value's span. -/
theorem revealJson_commit_subset (d : Direction) :
    ∀ (v : JsonValue), wfJson v = true → ∀ c ∈ revealJson d v, c.1 ⊆ v.span.indices
  | .jnull _, _ => by intro c hc; simp [revealJson] at hc
  | .jbool _, _ => by intro c hc; simp [revealJson] at hc
  | .jnumber _, _ => by intro c hc; simp [revealJson] at hc
  | .jstring _, _ => by intro c hc; simp [revealJson] at hc
  | .jredacted _, _ => by intro c hc; simp [revealJson] at hc
  | .jobject sp elems, h => by
    intro c hc
    obtain ⟨h1, _⟩ := wfJson_object h
    simp only [revealJson] at hc
    rcases List.mem_cons.mp hc with rfl | hc2
    · exact objectWithoutPairs_subset sp elems
    · obtain ⟨kv, hkv, hsub⟩ := revealJsonKVs_commit_subset d sp elems h1 c hc2
      exact hsub.trans (wfKVs_mem h1 hkv).2.1
  | .jarray sp elems, h => by
    intro c hc
    obtain ⟨h1, _⟩ := wfJson_array h
    simp only [revealJson] at hc
    rcases List.mem_cons.mp hc with rfl | hc2
    · exact arrayWithoutValues_subset sp
    rcases List.mem_cons.mp hc2 with rfl | hc3
    · exact arraySeparators_subset sp elems
    · obtain ⟨v2, hv2, hsub⟩ := revealJsonElems_commit_subset d sp elems h1 c hc3
      exact hsub.trans (wfElems_mem h1 hv2).1

/-- Every commit of the pair loop lies inside the span of one of the
pairs. -/
theorem revealJsonKVs_commit_subset (d : Direction) (sp : Span) :
    ∀ (elems : List KeyValue), wfKVs sp elems = true →
      ∀ c ∈ revealJsonKVs d elems, ∃ kv ∈ elems, c.1 ⊆ (kvSpan kv).indices
  | [], _ => by intro c hc; simp [revealJsonKVs] at hc
  | (ksp, kkey, kval) :: rest, h => by
    intro c hc
    obtain ⟨hval_sub, _, hwf, hrest⟩ := wfKVs_cons h
    simp only [revealJsonKVs] at hc
    rcases List.mem_cons.mp hc with rfl | hc2
    · exact ⟨(ksp, kkey, kval), List.mem_cons_self _ _, Finset.sdiff_subset⟩
    rcases List.mem_append.mp hc2 with hcv | hcr
    · have hsub := revealJson_commit_subset d kval hwf c hcv
      exact ⟨(ksp, kkey, kval), List.mem_cons_self _ _, hsub.trans hval_sub⟩
    · obtain ⟨kv2, hkv2, hsub⟩ := revealJsonKVs_commit_subset d sp rest hrest c hcr
      exact ⟨kv2, List.mem_cons_of_mem _ hkv2, hsub⟩

/-- Every commit of the element loop lies inside the span of one of the
elements. -/
theorem revealJsonElems_commit_subset (d : Direction) (sp : Span) :
    ∀ (elems : List JsonValue), wfElems sp elems = true →
      ∀ c ∈ revealJsonElems d elems, ∃ v ∈ elems, c.1 ⊆ v.span.indices
  | [], _ => by intro c hc; simp [revealJsonElems] at hc
  | v :: rest, h => by
    intro c hc
    obtain ⟨_, _, hwf, hrest⟩ := wfElems_cons h
    simp only [revealJsonElems] at hc
    rcases List.mem_append.mp hc with hcv | hcr
    · exact ⟨v, List.mem_cons_self _ _, revealJson_commit_subset d v hwf c hcv⟩
    · obtain ⟨v2, hv2, hsub⟩ := revealJsonElems_commit_subset d sp rest hrest c hcr
      exact ⟨v2, List.mem_cons_of_mem _ hv2, hsub⟩
end

mutual
/-- The JSON planner's commits on a well-formed value are pairwise
disjoint index sets. -/
theorem revealJson_pairwise (d : Direction) :
    ∀ (v : JsonValue), wfJson v = true →
      (revealJson d v).Pairwise (fun a b => Disjoint a.1 b.1)
  | .jnull _, _ => by simp [revealJson]
  | .jbool _, _ => by simp [revealJson]
  | .jnumber _, _ => by simp [revealJson]
  | .jstring _, _ => by simp [revealJson]
  | .jredacted _, _ => by simp [revealJson]
  | .jobject sp elems, h => by
    obtain ⟨h1, h2⟩ := wfJson_object h
    simp only [revealJson]
    refine List.Pairwise.cons ?_ (revealJsonKVs_pairwise d sp elems h1 h2)
    intro c hc
    obtain ⟨kv, hkv, hsub⟩ := revealJsonKVs_commit_subset d sp elems h1 c hc
    exact (objectWithoutPairs_disjoint hkv).mono_right hsub
  | .jarray sp elems, h => by
    obtain ⟨h1, h2⟩ := wfJson_array h
    simp only [revealJson]
    refine List.Pairwise.cons ?_
      (List.Pairwise.cons ?_ (revealJsonElems_pairwise d sp elems h1 h2))
    · intro c hc
      rcases List.mem_cons.mp hc with rfl | hc2
      · exact (arraySeparators_disjoint_wv sp elems).symm
      · obtain ⟨v2, hv2, hsub⟩ := revealJsonElems_commit_subset d sp elems h1 c hc2
        exact ((wfElems_mem h1 hv2).2.1.symm).mono_right hsub
    · intro c hc
      obtain ⟨v2, hv2, hsub⟩ := revealJsonElems_commit_subset d sp elems h1 c hc
      exact (arraySeparators_disjoint_elem hv2).mono_right hsub

/-- The pair loop's commits on well-formed pairs with pairwise-disjoint
pair spans are pairwise disjoint index sets. -/
theorem revealJsonKVs_pairwise (d : Direction) (sp : Span) :
    ∀ (elems : List KeyValue), wfKVs sp elems = true →
      pairwiseDisj (kvSpanSets elems) = true →
      (revealJsonKVs d elems).Pairwise (fun a b => Disjoint a.1 b.1)
  | [], _, _ => by simp [revealJsonKVs]
  | (ksp, kkey, kval) :: rest, h, hp => by
    obtain ⟨hval_sub, _, hwf, hrest⟩ := wfKVs_cons h
    obtain ⟨hdisj_heads, hp_rest⟩ := pairwiseDisj_cons (by simpa [kvSpanSets] using hp)
    simp only [revealJsonKVs]
    refine List.Pairwise.cons ?_ ?_
    · intro c hc
      rcases List.mem_append.mp hc with hcv | hcr
      · have hsub := revealJson_commit_subset d kval hwf c hcv
        exact Finset.sdiff_disjoint.mono_right hsub
      · obtain ⟨kv2, hkv2, hsub⟩ := revealJsonKVs_commit_subset d sp rest hrest c hcr
        have hd : Disjoint ksp.indices (kvSpan kv2).indices :=
          hdisj_heads _ (List.mem_map_of_mem _ hkv2)
        exact (hd.mono_left Finset.sdiff_subset).mono_right hsub
    · rw [List.pairwise_append]
      refine ⟨revealJson_pairwise d kval hwf,
        revealJsonKVs_pairwise d sp rest hrest hp_rest, ?_⟩
      intro a ha b hb
      have hsa := revealJson_commit_subset d kval hwf a ha
      obtain ⟨kv2, hkv2, hsb⟩ := revealJsonKVs_commit_subset d sp rest hrest b hb
      have hd : Disjoint ksp.indices (kvSpan kv2).indices :=
        hdisj_heads _ (List.mem_map_of_mem _ hkv2)
      exact (hd.mono_left (hsa.trans hval_sub)).mono_right hsb

/-- The element loop's commits on well-formed elements with
pairwise-disjoint element spans are pairwise disjoint index sets. -/
theorem revealJsonElems_pairwise (d : Direction) (sp : Span) :
    ∀ (elems : List JsonValue), wfElems sp elems = true →
      pairwiseDisj (elemSpanSets elems) = true →
      (revealJsonElems d elems).Pairwise (fun a b => Disjoint a.1 b.1)
  | [], _, _ => by simp [revealJsonElems]
  | v :: rest, h, hp => by
    obtain ⟨hsub_sp, _, hwf, hrest⟩ := wfElems_cons h
    obtain ⟨hdisj_heads, hp_rest⟩ := pairwiseDisj_cons (by simpa [elemSpanSets] using hp)
    simp only [revealJsonElems]
    rw [List.pairwise_append]
    refine ⟨revealJson_pairwise d v hwf,
      revealJsonElems_pairwise d sp rest hrest hp_rest, ?_⟩
    intro a ha b hb
    have hsa := revealJson_commit_subset d v hwf a ha
    obtain ⟨v2, hv2, hsb⟩ := revealJsonElems_commit_subset d sp rest hrest b hb
    have hd : Disjoint v.span.indices v2.span.indices :=
      hdisj_heads _ (List.mem_map_of_mem _ hv2)
    exact (hd.mono_left hsa).mono_right hsb
end

/-- Claim C3, counterexample: already on the minimal transcript holding the
single request `GET /a HTTP/1.1` (no headers, no body), `reveal_structure`
commits the same Sent bytes twice — the target bytes 4-5 are inside the
`without_data` envelope commit and are then committed again by the
dedicated target commit — so the multiset of committed (byte, direction)
pairs has duplicates. -/
theorem C3_counterexample :
    ¬ (revealStructure structOneRequest).Pairwise
      (fun a b => a.2 = b.2 → Disjoint a.1 b.1) := by
  decide

/-- Claim C3 as amended: within the JSON planner invoked by
`reveal_structure` for a JSON body (`reveal_json_structure`), the multiset
of committed (byte, direction) pairs has no duplicates, for every parse
tree satisfying the span invariants of the data model; the full
`reveal_structure` walk does commit some envelope bytes twice (targets and
framing-critical headers are covered both by `without_data` or
`without_value` and by their dedicated commits). -/
theorem C3_amended (d : Direction) (v : JsonValue) (h : wfJson v = true) :
    (revealJson d v).Pairwise (fun a b => Disjoint a.1 b.1) :=
  revealJson_pairwise d v h

/-- Claim C3 amended, witness: the planner's commits for the parsed array
`[42]` are pairwise disjoint. -/
theorem C3_amended_witness :
    (revealJson .sent structArr42).Pairwise (fun a b => Disjoint a.1 b.1) :=
  C3_amended .sent structArr42 (by decide)

end TranscriptContext
